import Mathlib

/-!
Verification of the `django-fluid` repository (`src/django_vue/views.py` and
`src/django_vue/mixins.py`).

The code turns a server-rendered Django view into a Vue component: it derives a
component name from the view class name, renders the view and strips style and
script elements from the body to obtain the component template, rewrites the
`[[`/`]]` delimiters to `{{`/`}}`, injects script tags for the required
client-side libraries into the document head, and rebuilds the body around a
generated bootstrapping script.

The shallow embedding below models:
  - Python `str.replace` for the two-character patterns used by the code;
  - `inflection.camelize` and the `re.sub(r"(component|view)$", ...)` call
    (which, in the source, passes `re.IGNORECASE` as the *count* argument of
    `re.sub`, so the actual matching is case-sensitive);
  - parsed HTML documents as a tree of element/text nodes, with the document
    given by the child lists of its unique `head` and `body` elements;
  - BeautifulSoup's `find_all`/`extract` (recursive, document order) and
    `new_tag`/`append`/`clear` as used by the code;
  - the Python dict comprehension deduplicating component instances by name
    (first-insertion position kept, later value wins);
  - the `get` post-processing pipeline of both `DjangoVueComponent`
    (`views.py`) and `DjangoVueComponentMixin` (`mixins.py`), with the
    fallible external collaborators (Django template rendering, HTML parsing)
    passed in as `Except` values.
-/

namespace DjangoVue

/-! ## Python string primitives -/

/-- Substring test, `needle ∈ hay` in the sense of Python's `in` operator. -/
def containsSub (needle : List Char) : List Char → Bool
  | [] => needle.isEmpty
  | c :: t => needle.isPrefixOf (c :: t) || containsSub needle t

/-- `strContainsB hay needle` models Python's `needle in hay` on strings. -/
def strContainsB (hay needle : String) : Bool :=
  containsSub needle.data hay.data

/-- Python `sep.join(l)`. -/
def strJoin (sep : String) : List String → String
  | [] => ""
  | [x] => x
  | x :: y :: rest => x ++ sep ++ strJoin sep (y :: rest)

/-- One pass of Python `s.replace(o₁o₂, n₁n₂)` for a two-character pattern:
leftmost, non-overlapping, greedy scan. -/
def replPair (a b c d : Char) : List Char → List Char
  | x :: y :: rest =>
    if x = a ∧ y = b then c :: d :: replPair a b c d rest
    else x :: replPair a b c d (y :: rest)
  | l => l

/-- `hasPair a b l` holds when `l` has the two adjacent characters `a`, `b`. -/
def hasPair (a b : Char) : List Char → Bool
  | x :: y :: rest => (decide (x = a) && decide (y = b)) || hasPair a b (y :: rest)
  | _ => false

/-- Python `s.replace(o₁o₂, n₁n₂)` on strings. -/
def pythonReplace2 (o1 o2 n1 n2 : Char) (s : String) : String :=
  String.mk (replPair o1 o2 n1 n2 s.data)

/-- The delimiter rewrite of `get_vue_template`
(views.py line 74 / mixins.py line 73):
`template.replace("[[", "{{").replace("]]", "}}")`. -/
def replaceDelims (s : String) : String :=
  pythonReplace2 ']' ']' '}' '}' (pythonReplace2 '[' '[' '{' '{' s)

/-! ## `inflection.camelize` and the suffix strip of `get_vue_name` -/

/-- Tail step of `inflection.camelize`: the regex
`re.sub(r"(?:^|_)(.)", lambda m: m.group(1).upper(), string)` applied from the
second character on (the `_` of a match is consumed and the captured character
is uppercased). -/
def camelizeChars : List Char → List Char
  | [] => []
  | '_' :: c :: rest => c.toUpper :: camelizeChars rest
  | c :: rest => c :: camelizeChars rest

/-- `inflection.camelize` with `uppercase_first_letter=True`. -/
def camelize (s : String) : String :=
  match s.data with
  | [] => ""
  | c :: rest => String.mk (c.toUpper :: camelizeChars rest)

/-- Remove `suf` from the end of `s` when it is a suffix (case-sensitively). -/
def dropSuffixIf (s suf : String) : Option String :=
  if suf.data.isSuffixOf s.data then
    some (String.mk (s.data.take (s.data.length - suf.data.length)))
  else none

/-- `re.sub(r"(component|view)$", "", name, re.IGNORECASE)` as executed
(views.py line 28 / mixins.py line 27).  `re.IGNORECASE` (= 2) is passed
positionally as `re.sub`'s `count` parameter, not as `flags`, so the match is
case-SENSITIVE; the pattern is anchored at the end and matches at most once,
so the count bound is irrelevant.  (`$` can also match before a trailing
newline in Python, which is unobservable for class names.) -/
def reSubComponentView (s : String) : String :=
  match dropSuffixIf s "component" with
  | some r => r
  | none =>
    match dropSuffixIf s "view" with
    | some r => r
    | none => s

/-- `get_vue_name` (views.py lines 25-29 / mixins.py lines 24-28) as a function
of the view class name. -/
def vueNameOfClassName (n : String) : String :=
  camelize (reSubComponentView n)

/-! ## Parsed HTML documents

A BeautifulSoup tree is modelled as element/text nodes; an element carries its
tag, its attribute list and its children.  A parsed document (`lxml` or
`html5lib` always produce exactly one `html`/`head`/`body` skeleton) is given
by the child lists of its `head` and `body` elements. -/

inductive Node where
  | text : String → Node
  | elem : String → List (String × String) → List Node → Node

/-- A parsed document: the children of its `head` and of its `body`. -/
structure Doc where
  head : List Node
  body : List Node

/-- Attribute lookup on a tag. -/
def attrVal (attrs : List (String × String)) (k : String) : Option String :=
  (attrs.find? (fun p => p.1 == k)).map Prod.snd

/-- `[e.extract() for e in body.find_all(t)]`, effect on the tree: every
element with tag `t` is removed, at every depth. -/
def removeTL (t : String) : List Node → List Node
  | [] => []
  | .text s :: cs => .text s :: removeTL t cs
  | .elem tg a gs :: cs =>
    if tg = t then removeTL t cs
    else .elem tg a (removeTL t gs) :: removeTL t cs

/-- `[e.extract() for e in body.find_all(t)]`, the resulting list: the matching
elements in document (preorder) order; each extracted element has in turn lost
its own matching descendants (they are extracted right after it and appear as
later entries). -/
def collectTL (t : String) : List Node → List Node
  | [] => []
  | .text _ :: cs => collectTL t cs
  | .elem tg a gs :: cs =>
    if tg = t then .elem tg a (removeTL t gs) :: (collectTL t gs ++ collectTL t cs)
    else collectTL t gs ++ collectTL t cs

/-- Number of elements with tag `t` anywhere in the forest. -/
def countTagL (t : String) : List Node → Nat
  | [] => 0
  | .text _ :: cs => countTagL t cs
  | .elem tg _ gs :: cs => (if tg = t then 1 else 0) + countTagL t gs + countTagL t cs

/-- Serialization of a forest, as `renderContents` produces it (entity
escaping of text is not modelled; no claim depends on it). -/
def renderNodeL : List Node → String
  | [] => ""
  | .text s :: cs => s ++ renderNodeL cs
  | .elem t a gs :: cs =>
    "<" ++ t ++ String.join (a.map (fun p => " " ++ p.1 ++ "=\"" ++ p.2 ++ "\"")) ++ ">"
      ++ renderNodeL gs ++ "</" ++ t ++ ">" ++ renderNodeL cs

/-- The `src` values of every `script` element in the forest that has a truthy
(present and non-empty) `src` attribute, in document order.  This is what the
filter `src=lambda x: x and name in x` ranges over. -/
def scriptSrcsL : List Node → List String
  | [] => []
  | .text _ :: cs => scriptSrcsL cs
  | .elem tg a gs :: cs =>
    (if tg = "script" then
      (match attrVal a "src" with
        | some s => if s = "" then [] else [s]
        | none => [])
      else []) ++ scriptSrcsL gs ++ scriptSrcsL cs

/-! ## `get_vue_template` (views.py lines 58-74) -/

/-- The forest left in the body after the two extraction passes of
`get_vue_template`: first every `style` element is extracted, then every
`script` element. -/
def strippedBody (bodyChildren : List Node) : List Node :=
  removeTL "script" (removeTL "style" bodyChildren)

/-- `get_vue_template` as a function of the rendered body's children
(views.py lines 63-74): extract styles and scripts, serialize what remains,
rewrite the `[[`/`]]` delimiters. -/
def get_vue_template_body (bodyChildren : List Node) : String :=
  replaceDelims (renderNodeL (strippedBody bodyChildren))

/-! ## Vue components (`DjangoVueComponent` class data) -/

/-- The static configuration of a `DjangoVueComponent` view class, together
with the body its Django template renders to.  `dataJson`, `emitsJson` and
`propsJson` stand for the `json.dumps` serializations of `vue_data`,
`vue_emits` and `vue_props` (the `json` module is an external collaborator). -/
structure VueComponent where
  className : String
  dataJson : String
  emitsJson : String
  propsJson : String
  renderedBody : List Node

/-- `get_vue_name` (views.py lines 25-29). -/
def get_vue_name (c : VueComponent) : String :=
  vueNameOfClassName c.className

/-- `get_vue_template` (views.py lines 58-74) as a function of the component's
rendered body. -/
def get_vue_template (c : VueComponent) : String :=
  get_vue_template_body c.renderedBody

/-- Python's `template or fallback` for an optional string argument: both
`None` and `""` are falsy and select the fallback. -/
def pyOrString : Option String → String → String
  | none, fallback => fallback
  | some s, fallback => if s = "" then fallback else s

/-- `get_vue_definition` (views.py lines 31-41): the f-string building the
component's JavaScript definition.  `template or self.get_vue_template(request)`
is `pyOrString template (get_vue_template c)`. -/
def get_vue_definition (c : VueComponent) (template : Option String) : String :=
  "\n            const " ++ get_vue_name c
    ++ " = \x7b\n              data() \x7b\n                return " ++ c.dataJson
    ++ "\n              \x7d,\n              emits: " ++ c.emitsJson
    ++ ",\n              props: " ++ c.propsJson
    ++ ",\n              template: `" ++ pyOrString template (get_vue_template c)
    ++ "`,\n            \x7d\n        "

/-! ## Python dict semantics (the instance deduplication of `get`) -/

/-- One assignment `d[k] = v` on a CPython dict represented as its insertion-
ordered key/value list: an existing key keeps its position and gets the new
value, a new key is appended. -/
def dictInsert {α : Type} : List (String × α) → String → α → List (String × α)
  | [], k, v => [(k, v)]
  | p :: m, k, v => if p.1 = k then (k, v) :: m else p :: dictInsert m k v

/-- The dict comprehension `{f(c): c for c in l}` (views.py lines 140-145). -/
def dictOfList {α : Type} (l : List (String × α)) : List (String × α) :=
  l.foldl (fun m p => dictInsert m p.1 p.2) []

/-- First-some choice on options. -/
def oElse {α : Type} : Option α → Option α → Option α
  | some a, _ => some a
  | none, b => b

/-- Lookup of the (first) entry with key `k`. -/
def lookupD {α : Type} (m : List (String × α)) (k : String) : Option α :=
  (m.find? (fun p => p.1 == k)).map Prod.snd

/-- The value of the LAST entry with key `k`, if any. -/
def lastValD {α : Type} : List (String × α) → String → Option α
  | [], _ => none
  | p :: l, k => oElse (lastValD l k) (if p.1 = k then some p.2 else none)

/-- `list(self.get_vue_components().values()) +
list(self.get_vue_routes().values()) + [self]`
(views.py lines 142-144). -/
def instanceList (comps routes : List (String × VueComponent))
    (selfC : VueComponent) : List VueComponent :=
  comps.map Prod.snd ++ routes.map Prod.snd ++ [selfC]

/-- The pairs fed to the deduplicating dict comprehension of `get`. -/
def instancePairs (comps routes : List (String × VueComponent))
    (selfC : VueComponent) : List (String × VueComponent) :=
  (instanceList comps routes selfC).map (fun c => (get_vue_name c, c))

/-- `instances` (views.py lines 140-145): the `.values()` of the dict built
from `instancePairs`. -/
def vueInstances (comps routes : List (String × VueComponent))
    (selfC : VueComponent) : List VueComponent :=
  (dictOfList (instancePairs comps routes selfC)).map Prod.snd

/-! ## The bootstrapping script and the `get` pipeline (views.py 76-176) -/

/-- `registrations` (views.py lines 148-151). -/
def registrationsStr (comps : List (String × VueComponent)) : String :=
  strJoin "\n"
    (comps.map (fun p => "app.component(\"" ++ p.1 ++ "\", " ++ get_vue_name p.2 ++ ")"))

/-- `routes` (views.py lines 152-155). -/
def routesStr (routes : List (String × VueComponent)) : String :=
  strJoin ","
    (routes.map (fun p =>
      "\x7b path: \"" ++ p.1 ++ "\", component: " ++ get_vue_name p.2 ++ " \x7d"))

/-- `vue.string` (views.py lines 156-167): the generated bootstrapping
script. -/
def bootstrapScript (comps routes : List (String × VueComponent))
    (selfC : VueComponent) : String :=
  "\n            const \x7b loadModule \x7d = window[\"vue3-sfc-loader\"];\n            "
    ++ strJoin "\n" ((vueInstances comps routes selfC).map (fun c => get_vue_definition c none))
    ++ "\n            const app = Vue.createApp(" ++ get_vue_name selfC ++ ")\n            "
    ++ registrationsStr comps
    ++ "\n            const router = VueRouter.createRouter(\x7b\n              history: VueRouter.createWebHashHistory(),\n              routes: ["
    ++ routesStr routes
    ++ "]\n            \x7d)\n            app.use(router)\n            app.mount(\"#app\")\n        "

/-- `script_present(name)` (views.py lines 83-84): some `script` element of
the whole document has a truthy `src` containing `name` as a substring. -/
def script_present (d : Doc) (nm : String) : Bool :=
  (scriptSrcsL d.head ++ scriptSrcsL d.body).any (fun s => strContainsB s nm)

/-- `soup.new_tag("script", attrs={"src": src})`. -/
def scriptTag (src : String) : Node :=
  .elem "script" [("src", src)] []

/-- Django's `static()`: the `STATIC_URL`-prefixed path of a static asset. -/
def staticUrlOf (staticUrl path : String) : String :=
  staticUrl ++ path

/-- One `if not script_present(name): head.append(tag)` step of `get`. -/
def addIfAbsent (d : Doc) (nm : String) (tag : Node) : Doc :=
  if script_present d nm then d else { d with head := d.head ++ [tag] }

/-- The five sequential library-injection steps of `DjangoVueComponent.get`
(views.py lines 86-129), in source order; each check runs on the document as
already modified by the previous steps. -/
def injectScripts (staticUrl : String) (d : Doc) : Doc :=
  let d1 := addIfAbsent d "vue" (scriptTag "https://unpkg.com/vue@next")
  let d2 := addIfAbsent d1 "vue-router" (scriptTag "https://unpkg.com/vue-router@next")
  let d3 := addIfAbsent d2 "vue3-sfc-loader"
    (scriptTag "https://cdn.jsdelivr.net/npm/vue3-sfc-loader/dist/vue3-sfc-loader.js")
  let d4 := addIfAbsent d3 "axios" (scriptTag "https://unpkg.com/axios/dist/axios.min.js")
  addIfAbsent d4 "django-vue" (scriptTag (staticUrlOf staticUrl "django-vue.js"))

/-- `soup.new_tag("div", id="app")` (views.py line 171). -/
def appDiv : Node :=
  .elem "div" [("id", "app")] []

/-- The `vue` script tag holding the bootstrapping script (views.py 138/156). -/
def bootstrapNode (s : String) : Node :=
  .elem "script" [] [.text s]

/-- `styles = [e.extract() for e in body.find_all("style")]` (line 133). -/
def bodyStyles (d : Doc) : List Node :=
  collectTL "style" d.body

/-- `scripts = [e.extract() for e in body.find_all("script")]` (line 134),
run after the styles were extracted. -/
def bodyScripts (d : Doc) : List Node :=
  collectTL "script" (removeTL "style" d.body)

/-- Lines 131-173 of views.py: extract styles and scripts from the body,
`body.clear()`, then rebuild it as styles, the `#app` div, the bootstrapping
script and the extracted scripts. -/
def processBody (d : Doc) (bootstrap : String) : Doc :=
  { d with body := bodyStyles d ++ [appDiv] ++ [bootstrapNode bootstrap] ++ bodyScripts d }

/-- The document transformation of `DjangoVueComponent.get`
(views.py lines 76-176). -/
def django_vue_get (staticUrl : String) (comps routes : List (String × VueComponent))
    (selfC : VueComponent) (doc : Doc) : Doc :=
  processBody (injectScripts staticUrl doc) (bootstrapScript comps routes selfC)

/-! ## `DjangoVueComponentMixin` (mixins.py lines 82-92)

`add_script_if_not_present(identifier, src)` evaluates
`any(soup.find_all("script", src=lambda x: x and name in x))` —
note `name`, which is not defined anywhere: the lambda short-circuits on a
falsy `src` and raises `NameError` on the first truthy one.  So the call
raises as soon as the document has any script with a non-empty `src`, and
otherwise the condition is `False` and nothing is appended; the `identifier`
and `src` arguments are never used successfully. -/

/-- Some script element of the document has a truthy `src`. -/
def anySrcScript (d : Doc) : Bool :=
  !(scriptSrcsL d.head ++ scriptSrcsL d.body).isEmpty

/-- `add_script_if_not_present` (mixins.py lines 82-84).  `Except.error ()`
models the `NameError` escaping the helper. -/
def add_script_if_not_present (d : Doc) (_identifier _src : String) : Except Unit Doc :=
  if anySrcScript d then Except.error () else Except.ok d

/-- The four injection calls of `DjangoVueComponentMixin.get`
(mixins.py lines 86-92), in source order; an uncaught `NameError` in one call
aborts the whole pipeline. -/
def mixin_inject_scripts (d : Doc) : Except Unit Doc :=
  match add_script_if_not_present d "axios" "https://unpkg.com/axios" with
  | .error e => .error e
  | .ok d1 =>
    match add_script_if_not_present d1 "vue" "https://unpkg.com/vue@next" with
    | .error e => .error e
    | .ok d2 =>
      match add_script_if_not_present d2 "vue-router" "https://unpkg.com/vue-router@next" with
      | .error e => .error e
      | .ok d3 =>
        add_script_if_not_present d3 "vue3-sfc-loader"
          "https://cdn.jsdelivr.net/npm/vue3-sfc-loader"

/-! ## Fallible collaborators (error propagation) -/

/-- `get_vue_template` with its fallible collaborators explicit: Django
rendering (`render_to_response`/`render`) produces the content, BeautifulSoup
parses it; the function installs no handler, each failure propagates. -/
def get_vue_template_fallible {ε : Type} (render : Except ε String)
    (parse : String → Except ε Doc) : Except ε String :=
  match render with
  | .error e => .error e
  | .ok content =>
    match parse content with
    | .error e => .error e
    | .ok doc => .ok (get_vue_template_body doc.body)

/-- `DjangoVueComponent.get` with its fallible collaborators explicit. -/
def django_vue_get_fallible {ε : Type} (staticUrl : String)
    (comps routes : List (String × VueComponent)) (selfC : VueComponent)
    (render : Except ε String) (parse : String → Except ε Doc) : Except ε Doc :=
  match render with
  | .error e => .error e
  | .ok content =>
    match parse content with
    | .error e => .error e
    | .ok doc => .ok (django_vue_get staticUrl comps routes selfC doc)

/-! ## Attribute effects on the view object (frame property) -/

structure HttpRequest where
  path : String

/-- The attributes of the view object that the pipeline can read or write:
the five declared configuration attributes and `request`. -/
structure ViewState where
  vue_components : List (String × VueComponent)
  vue_data : String
  vue_emits : String
  vue_props : String
  vue_routes : List (String × VueComponent)
  request : Option HttpRequest

/-- `get_vue_template` threaded through the view object's state:
`self.request = request` (views.py line 59) is its only attribute write. -/
def get_vue_template_state (req : HttpRequest) (s : ViewState)
    (rendered : List Node) : ViewState × String :=
  ({ s with request := some req }, get_vue_template_body rendered)

/-- `DjangoVueComponent.get` threaded through the view object's state: the
only step of the pipeline that writes a view attribute is the
`get_vue_template` call made (through `get_vue_definition`) while building the
bootstrapping script. -/
def django_vue_get_state (staticUrl : String) (req : HttpRequest) (s : ViewState)
    (selfC : VueComponent) (doc : Doc) : ViewState × Doc :=
  ((get_vue_template_state req s selfC.renderedBody).1,
    django_vue_get staticUrl s.vue_components s.vue_routes selfC doc)

/-! ## Theorems: delimiter replacement (C4 machinery) -/

theorem hasPair_tail (a b w : Char) (s : List Char) (h : hasPair a b (w :: s) = false) :
    hasPair a b s = false := by
  cases s with
  | nil => rfl
  | cons z t =>
    have : ((decide (w = a) && decide (z = b)) || hasPair a b (z :: t)) = false := h
    exact (Bool.or_eq_false_iff.mp this).2

theorem hasPair_cons_head (a b w z : Char) (t : List Char)
    (h : hasPair a b (w :: z :: t) = false) : ¬(w = a ∧ z = b) := by
  have : ((decide (w = a) && decide (z = b)) || hasPair a b (z :: t)) = false := h
  have h1 := (Bool.or_eq_false_iff.mp this).1
  intro ⟨hw, hz⟩
  subst hw; subst hz
  simp at h1

theorem hasPair_cons_of (a b w : Char) (s : List Char)
    (hs : hasPair a b s = false)
    (hhead : ∀ z t, s = z :: t → ¬(w = a ∧ z = b)) :
    hasPair a b (w :: s) = false := by
  cases s with
  | nil => rfl
  | cons z t =>
    show ((decide (w = a) && decide (z = b)) || hasPair a b (z :: t)) = false
    have := hhead z t rfl
    rw [hs]
    simp only [Bool.or_false, Bool.and_eq_false_iff, decide_eq_false_iff_not]
    by_cases hw : w = a
    · right; exact fun hz => this ⟨hw, hz⟩
    · left; exact hw

/-- The output of `replPair a b c d` on a cons starts with the original head or
with the replacement head `c` (and in the latter case the head was `a`). -/
theorem replPair_head (a b c d x : Char) (t : List Char) :
    (∃ r, replPair a b c d (x :: t) = x :: r) ∨
      (x = a ∧ ∃ r, replPair a b c d (x :: t) = c :: d :: r) := by
  cases t with
  | nil => exact Or.inl ⟨[], rfl⟩
  | cons y rest =>
    by_cases h : x = a ∧ y = b
    · right
      refine ⟨h.1, replPair a b c d rest, ?_⟩
      show (if x = a ∧ y = b then c :: d :: replPair a b c d rest
        else x :: replPair a b c d (y :: rest)) = _
      rw [if_pos h]
    · left
      refine ⟨replPair a b c d (y :: rest), ?_⟩
      show (if x = a ∧ y = b then c :: d :: replPair a b c d rest
        else x :: replPair a b c d (y :: rest)) = _
      rw [if_neg h]

/-- After replacing every occurrence of the pair `a b` by `c d`, no occurrence
of the pair `a b` remains (provided the replacement cannot recreate one). -/
theorem hasPair_replPair_self (a b c d : Char)
    (hcb : c ≠ b) (hda : d ≠ a) (hcd : ¬(c = a ∧ d = b)) :
    ∀ l : List Char, hasPair a b (replPair a b c d l) = false := by
  intro l
  induction l using replPair.induct a b c d with
  | case1 x y rest hxy ih =>
    show hasPair a b (if x = a ∧ y = b then c :: d :: replPair a b c d rest
      else x :: replPair a b c d (y :: rest)) = false
    rw [if_pos hxy]
    refine hasPair_cons_of a b c _ ?_ ?_
    · refine hasPair_cons_of a b d _ ih ?_
      intro z t _ hzd
      exact hda hzd.1
    · intro z t hz hcz
      cases hz
      exact hcd hcz
  | case2 x y rest hxy ih =>
    show hasPair a b (if x = a ∧ y = b then c :: d :: replPair a b c d rest
      else x :: replPair a b c d (y :: rest)) = false
    rw [if_neg hxy]
    refine hasPair_cons_of a b x _ ih ?_
    intro z t hz hxz
    rcases replPair_head a b c d y rest with ⟨r, hr⟩ | ⟨hya, r, hr⟩
    · rw [hr] at hz
      cases hz
      exact hxy hxz
    · rw [hr] at hz
      cases hz
      exact hcb hxz.2
  | case3 l hl =>
    cases l with
    | nil => rfl
    | cons x t =>
      cases t with
      | nil => rfl
      | cons y rest => exact (hl x y rest rfl).elim

/-- Replacing the pair `a b` by `c d` cannot create an occurrence of a pair
`a' b'` that was not already present (provided the replacement characters
cannot take part in one). -/
theorem hasPair_replPair_other (a b c d a' b' : Char)
    (h1 : c ≠ b') (h2 : d ≠ a') (h3 : ¬(c = a' ∧ d = b')) :
    ∀ l : List Char, hasPair a' b' l = false →
      hasPair a' b' (replPair a b c d l) = false := by
  intro l
  induction l using replPair.induct a b c d with
  | case1 x y rest hxy ih =>
    intro hin
    show hasPair a' b' (if x = a ∧ y = b then c :: d :: replPair a b c d rest
      else x :: replPair a b c d (y :: rest)) = false
    rw [if_pos hxy]
    have hrest : hasPair a' b' rest = false :=
      hasPair_tail _ _ _ _ (hasPair_tail _ _ _ _ hin)
    refine hasPair_cons_of a' b' c _ ?_ ?_
    · refine hasPair_cons_of a' b' d _ (ih hrest) ?_
      intro z t _ hzd
      exact h2 hzd.1
    · intro z t hz hcz
      cases hz
      exact h3 hcz
  | case2 x y rest hxy ih =>
    intro hin
    show hasPair a' b' (if x = a ∧ y = b then c :: d :: replPair a b c d rest
      else x :: replPair a b c d (y :: rest)) = false
    rw [if_neg hxy]
    have htl : hasPair a' b' (y :: rest) = false := hasPair_tail _ _ _ _ hin
    have hhd : ¬(x = a' ∧ y = b') := hasPair_cons_head _ _ _ _ _ hin
    refine hasPair_cons_of a' b' x _ (ih htl) ?_
    intro z t hz hxz
    rcases replPair_head a b c d y rest with ⟨r, hr⟩ | ⟨hya, r, hr⟩
    · rw [hr] at hz
      cases hz
      exact hhd hxz
    · rw [hr] at hz
      cases hz
      exact h1 hxz.2
  | case3 l hl =>
    intro hin
    cases l with
    | nil => exact hin
    | cons x t =>
      cases t with
      | nil => exact hin
      | cons y rest => exact (hl x y rest rfl).elim

/-- On a list without the pair `a b`, the replacement is the identity. -/
theorem replPair_eq_self (a b c d : Char) :
    ∀ l : List Char, hasPair a b l = false → replPair a b c d l = l := by
  intro l
  induction l with
  | nil => intro _; rfl
  | cons x t ih =>
    intro h
    cases t with
    | nil => rfl
    | cons y rest =>
      have hhd : ¬(x = a ∧ y = b) := hasPair_cons_head _ _ _ _ _ h
      have htl : hasPair a b (y :: rest) = false := hasPair_tail _ _ _ _ h
      show (if x = a ∧ y = b then c :: d :: replPair a b c d rest
        else x :: replPair a b c d (y :: rest)) = x :: y :: rest
      rw [if_neg hhd, ih htl]

/-- C4: the delimiter replacement
`f(s) = s.replace("[[", "{{").replace("]]", "}}")` of `get_vue_template` is
idempotent: `f (f s) = f s` for every string `s`; in particular it leaves
already-converted text unchanged. -/
theorem replaceDelims_idempotent (s : String) :
    replaceDelims (replaceDelims s) = replaceDelims s := by
  have hbrL : ('{' : Char) ≠ '[' := by decide
  have hbrR : ('}' : Char) ≠ ']' := by decide
  have hcdL : ¬(('{' : Char) = '[' ∧ ('{' : Char) = '[') := by decide
  have hcdR : ¬(('}' : Char) = ']' ∧ ('}' : Char) = ']') := by decide
  have hmixL : ('}' : Char) ≠ '[' := by decide
  have hmixR : ¬(('}' : Char) = '[' ∧ ('}' : Char) = '[') := by decide
  set l := s.data with hl
  have h1 : hasPair '[' '[' (replPair '[' '[' '{' '{' l) = false :=
    hasPair_replPair_self '[' '[' '{' '{' hbrL hbrL hcdL l
  have h2 : hasPair '[' '[' (replPair ']' ']' '}' '}' (replPair '[' '[' '{' '{' l)) = false :=
    hasPair_replPair_other ']' ']' '}' '}' '[' '[' hmixL hmixL hmixR _ h1
  have h3 : hasPair ']' ']' (replPair ']' ']' '}' '}' (replPair '[' '[' '{' '{' l)) = false :=
    hasPair_replPair_self ']' ']' '}' '}' hbrR hbrR hcdR _
  show String.mk (replPair ']' ']' '}' '}' (replPair '[' '[' '{' '{'
      (replPair ']' ']' '}' '}' (replPair '[' '[' '{' '{' l)))) =
    String.mk (replPair ']' ']' '}' '}' (replPair '[' '[' '{' '{' l))
  rw [replPair_eq_self '[' '[' '{' '{' _ h2, replPair_eq_self ']' ']' '}' '}' _ h3]

/-! ## Theorems: style/script extraction (C2) -/

theorem countTagL_removeTL (t : String) (l : List Node) :
    countTagL t (removeTL t l) = 0 := by
  induction l using removeTL.induct t with
  | case1 => simp [removeTL, countTagL]
  | case2 s cs ih => simp [removeTL, countTagL, ih]
  | case3 a gs cs ih => simp [removeTL, ih]
  | case4 tg a gs cs htg ihg ihc => simp [removeTL, countTagL, htg, ihg, ihc]

theorem countTagL_removeTL_le (t u : String) (l : List Node) :
    countTagL u (removeTL t l) ≤ countTagL u l := by
  induction l using removeTL.induct t with
  | case1 => simp [removeTL]
  | case2 s cs ih => simpa [removeTL, countTagL] using ih
  | case3 a gs cs ih =>
    simp only [removeTL, countTagL, eq_self_iff_true, if_true]
    omega
  | case4 tg a gs cs htg ihg ihc =>
    simp only [removeTL, countTagL, if_neg htg]
    omega

/-- C2: `get_vue_template` returns the rendered body's inner HTML with every
`style` element and every `script` element removed (at every depth) and with
`[[`/`]]` rewritten to `{{`/`}}`; the serialized forest contains no `style`
and no `script` element. -/
theorem get_vue_template_strips_styles_scripts (bodyChildren : List Node) :
    get_vue_template_body bodyChildren
        = replaceDelims (renderNodeL (strippedBody bodyChildren))
      ∧ countTagL "style" (strippedBody bodyChildren) = 0
      ∧ countTagL "script" (strippedBody bodyChildren) = 0 := by
  refine ⟨rfl, ?_, ?_⟩
  · have h1 : countTagL "style" (removeTL "style" bodyChildren) = 0 :=
      countTagL_removeTL "style" bodyChildren
    have h2 := countTagL_removeTL_le "script" "style" (removeTL "style" bodyChildren)
    unfold strippedBody
    omega
  · exact countTagL_removeTL "script" (removeTL "style" bodyChildren)

/-! ## Theorems: Python dict semantics (C5 machinery) -/

theorem dictInsert_mem_keys {α : Type} (m : List (String × α)) (k : String) (v : α)
    (k' : String) :
    k' ∈ (dictInsert m k v).map Prod.fst ↔ k' ∈ m.map Prod.fst ∨ k' = k := by
  induction m with
  | nil => simp [dictInsert]
  | cons p m ih =>
    show k' ∈ ((if p.1 = k then (k, v) :: m else p :: dictInsert m k v).map Prod.fst) ↔ _
    by_cases h : p.1 = k
    · rw [if_pos h]
      simp only [List.map_cons, List.mem_cons, h]
      tauto
    · rw [if_neg h]
      simp only [List.map_cons, List.mem_cons, ih]
      tauto

theorem dictInsert_keys_nodup {α : Type} (m : List (String × α)) (k : String) (v : α)
    (h : (m.map Prod.fst).Nodup) : ((dictInsert m k v).map Prod.fst).Nodup := by
  induction m with
  | nil => simp [dictInsert]
  | cons p m ih =>
    show ((if p.1 = k then (k, v) :: m else p :: dictInsert m k v).map Prod.fst).Nodup
    simp only [List.map_cons, List.nodup_cons] at h
    by_cases hp : p.1 = k
    · rw [if_pos hp]
      simp only [List.map_cons, List.nodup_cons]
      rw [← hp]
      exact h
    · rw [if_neg hp]
      simp only [List.map_cons, List.nodup_cons]
      refine ⟨?_, ih h.2⟩
      rw [dictInsert_mem_keys]
      rintro (hm | hk)
      · exact h.1 hm
      · exact hp hk

theorem lookupD_dictInsert {α : Type} (m : List (String × α)) (k : String) (v : α)
    (k' : String) :
    lookupD (dictInsert m k v) k' = if k' = k then some v else lookupD m k' := by
  induction m with
  | nil =>
    by_cases h : k' = k
    · simp [dictInsert, lookupD, List.find?, h]
    · simp only [dictInsert, lookupD, List.find?]
      rw [if_neg h]
      have : (k == k') = false := by
        simp only [beq_eq_false_iff_ne, ne_eq]
        exact fun hk => h hk.symm
      simp [this]
  | cons p m ih =>
    by_cases hp : p.1 = k
    · by_cases h : k' = k
      · simp [dictInsert, hp, lookupD, List.find?, h]
      · have hb : (k == k') = false := by
          simp only [beq_eq_false_iff_ne, ne_eq]
          exact fun hk => h hk.symm
        have hb2 : (p.1 == k') = false := by
          simp only [beq_eq_false_iff_ne, ne_eq]
          intro hk
          exact h (by rw [← hk, hp])
        simp [dictInsert, hp, lookupD, List.find?, hb, hb2, h]
    · by_cases hkk : p.1 = k'
      · simp [dictInsert, hp, lookupD, List.find?, hkk, if_neg (fun h : k' = k => hp (hkk ▸ h))]
      · have hb : (p.1 == k') = false := by
          simp only [beq_eq_false_iff_ne, ne_eq]
          exact hkk
        simp only [dictInsert, if_neg hp, lookupD, List.find?, hb] at ih ⊢
        exact ih

theorem oElse_assoc {α : Type} (a b c : Option α) :
    oElse (oElse a b) c = oElse a (oElse b c) := by
  cases a <;> cases b <;> rfl

theorem lastValD_append {α : Type} (l1 l2 : List (String × α)) (k : String) :
    lastValD (l1 ++ l2) k = oElse (lastValD l2 k) (lastValD l1 k) := by
  induction l1 with
  | nil =>
    show lastValD l2 k = oElse (lastValD l2 k) none
    cases lastValD l2 k <;> rfl
  | cons p l1 ih =>
    show oElse (lastValD (l1 ++ l2) k) _ = oElse (lastValD l2 k) (oElse (lastValD l1 k) _)
    rw [ih, oElse_assoc]

theorem lookupD_foldl {α : Type} (l : List (String × α)) :
    ∀ (init : List (String × α)) (k : String),
      lookupD (l.foldl (fun m p => dictInsert m p.1 p.2) init) k
        = oElse (lastValD l k) (lookupD init k) := by
  induction l with
  | nil =>
    intro init k
    show lookupD init k = oElse none (lookupD init k)
    rfl
  | cons p l ih =>
    intro init k
    show lookupD (l.foldl _ (dictInsert init p.1 p.2)) k = _
    rw [ih, lookupD_dictInsert]
    show _ = oElse (oElse (lastValD l k) (if p.1 = k then some p.2 else none)) (lookupD init k)
    rw [oElse_assoc]
    cases hlv : lastValD l k with
    | some a => rfl
    | none =>
      show (if k = p.1 then some p.2 else lookupD init k)
        = oElse (if p.1 = k then some p.2 else none) (lookupD init k)
      by_cases hk : k = p.1
      · rw [if_pos hk, if_pos hk.symm]
        rfl
      · rw [if_neg hk, if_neg (fun h => hk h.symm)]
        rfl

theorem lookupD_dictOfList {α : Type} (l : List (String × α)) (k : String) :
    lookupD (dictOfList l) k = lastValD l k := by
  unfold dictOfList
  rw [lookupD_foldl]
  cases lastValD l k <;> rfl

theorem dictOfList_keys_nodup {α : Type} (l : List (String × α)) :
    ((dictOfList l).map Prod.fst).Nodup := by
  have aux : ∀ (init : List (String × α)), (init.map Prod.fst).Nodup →
      (((l.foldl (fun m p => dictInsert m p.1 p.2) init)).map Prod.fst).Nodup := by
    induction l with
    | nil => intro init h; exact h
    | cons p l ih =>
      intro init h
      exact ih (dictInsert init p.1 p.2) (dictInsert_keys_nodup init p.1 p.2 h)
  exact aux [] (by simp)

theorem mem_keys_dictOfList {α : Type} (l : List (String × α)) (k : String) :
    k ∈ (dictOfList l).map Prod.fst ↔ k ∈ l.map Prod.fst := by
  have aux : ∀ (init : List (String × α)),
      (k ∈ ((l.foldl (fun m p => dictInsert m p.1 p.2) init)).map Prod.fst
        ↔ k ∈ l.map Prod.fst ∨ k ∈ init.map Prod.fst) := by
    induction l with
    | nil => intro init; simp
    | cons p l ih =>
      intro init
      show k ∈ (l.foldl _ (dictInsert init p.1 p.2)).map Prod.fst ↔ _
      rw [ih (dictInsert init p.1 p.2), dictInsert_mem_keys]
      simp only [List.map_cons, List.mem_cons]
      tauto
  unfold dictOfList
  rw [aux []]
  simp

theorem mem_of_lookupD {α : Type} (m : List (String × α)) (k : String) (v : α)
    (h : lookupD m k = some v) : (k, v) ∈ m := by
  induction m with
  | nil => simp [lookupD, List.find?] at h
  | cons p m ih =>
    by_cases hp : p.1 = k
    · have hb : (p.1 == k) = true := by simp [hp]
      simp only [lookupD, List.find?, hb, Option.map_some] at h
      have h2 : p.2 = v := by injection h
      have hpkv : p = (k, v) := by
        calc p = (p.1, p.2) := rfl
          _ = (k, v) := by rw [hp, h2]
      rw [← hpkv]
      exact List.mem_cons_self p m
    · have hb : (p.1 == k) = false := by simp [hp]
      simp only [lookupD, List.find?, hb] at h
      exact List.mem_cons_of_mem _ (ih h)

theorem lookupD_of_mem_nodup {α : Type} (m : List (String × α)) (k : String) (v : α)
    (hnd : (m.map Prod.fst).Nodup) (h : (k, v) ∈ m) : lookupD m k = some v := by
  induction m with
  | nil => simp at h
  | cons p m ih =>
    simp only [List.map_cons, List.nodup_cons] at hnd
    rcases List.mem_cons.mp h with heq | hm
    · rw [← heq]
      simp [lookupD, List.find?]
    · have hp : p.1 ≠ k := by
        intro hk
        exact hnd.1 (hk ▸ (List.mem_map.mpr ⟨(k, v), hm, rfl⟩))
      have hb : (p.1 == k) = false := by simp [hp]
      simp only [lookupD, List.find?, hb]
      exact ih hnd.2 hm

theorem mem_dictInsert {α : Type} (m : List (String × α)) (k : String) (v : α)
    (p : String × α) (h : p ∈ dictInsert m k v) : p ∈ m ∨ p = (k, v) := by
  induction m with
  | nil => simp [dictInsert] at h; right; exact h
  | cons q m ih =>
    by_cases hq : q.1 = k
    · simp only [dictInsert, if_pos hq, List.mem_cons] at h
      rcases h with h | h
      · right; exact h
      · left; exact List.mem_cons_of_mem _ h
    · simp only [dictInsert, if_neg hq, List.mem_cons] at h
      rcases h with h | h
      · left; exact List.mem_cons.mpr (Or.inl h)
      · rcases ih h with h1 | h1
        · left; exact List.mem_cons_of_mem _ h1
        · right; exact h1

theorem foldl_dictInsert_pairProp {α : Type} (P : String × α → Prop) :
    ∀ (l init : List (String × α)), (∀ p ∈ l, P p) → (∀ p ∈ init, P p) →
      ∀ p ∈ l.foldl (fun m q => dictInsert m q.1 q.2) init, P p := by
  intro l
  induction l with
  | nil => intro init _ hinit p hp; exact hinit p hp
  | cons q l ih =>
    intro init hql hinit p hp
    refine ih (dictInsert init q.1 q.2) (fun r hr => hql r (List.mem_cons_of_mem _ hr))
      ?_ p hp
    intro r hr
    rcases mem_dictInsert init q.1 q.2 r hr with h | h
    · exact hinit r h
    · rw [h]
      exact hql q (List.mem_cons_self q l)

theorem dictOfList_pairProp {α : Type} (P : String × α → Prop) (l : List (String × α))
    (hl : ∀ p ∈ l, P p) : ∀ p ∈ dictOfList l, P p :=
  foldl_dictInsert_pairProp P l [] hl (by simp)

/-! ## Claim theorems -/

/-- C1 (code bug): `DjangoVueComponentMixin.add_script_if_not_present`
(mixins.py lines 82-84) never injects a library script tag.  Its condition is
inverted relative to its own name and to the comment `Add the required
libraries to the head if they are not present`, and it tests the undefined
variable `name`: on a rendered page with no script element at all — where the
claim requires all four library tags to be appended — all four calls leave the
document unchanged; as soon as some script with a truthy `src` exists the
helper raises `NameError` instead. -/
theorem mixin_add_script_never_adds :
    mixin_inject_scripts ⟨[], [Node.elem "p" [] [Node.text "hello"]]⟩
        = Except.ok ⟨[], [Node.elem "p" [] [Node.text "hello"]]⟩
    ∧ mixin_inject_scripts ⟨[scriptTag "https://example.com/jquery.js"], []⟩
        = Except.error () := by
  constructor
  · have h1 : anySrcScript ⟨[], [Node.elem "p" [] [Node.text "hello"]]⟩ = false := by
      simp [anySrcScript, scriptSrcsL]
    have hstep : ∀ i s : String,
        add_script_if_not_present ⟨[], [Node.elem "p" [] [Node.text "hello"]]⟩ i s
          = Except.ok ⟨[], [Node.elem "p" [] [Node.text "hello"]]⟩ := by
      intro i s
      unfold add_script_if_not_present
      rw [h1]
      rfl
    simp only [mixin_inject_scripts, hstep]
  · have h1 : anySrcScript ⟨[scriptTag "https://example.com/jquery.js"], []⟩ = true := by
      simp [anySrcScript, scriptSrcsL, scriptTag, attrVal]
    have hstep : ∀ i s : String,
        add_script_if_not_present ⟨[scriptTag "https://example.com/jquery.js"], []⟩ i s
          = Except.error () := by
      intro i s
      unfold add_script_if_not_present
      rw [h1]
      rfl
    simp only [mixin_inject_scripts, hstep]

/-- C3 (code bug): `get_vue_name` passes `re.IGNORECASE` as the `count`
argument of `re.sub`, so the `(component|view)$` suffix match is
case-sensitive: a class named `FooComponent` yields `FooComponent` (the claim
says `Foo`) and `BarView` yields `BarView` (the claim says `Bar`), while the
all-lowercase suffixes are stripped. -/
theorem get_vue_name_case_sensitive :
    get_vue_name ⟨"FooComponent", "\x7b\x7d", "[]", "[]", []⟩ = "FooComponent"
    ∧ get_vue_name ⟨"BarView", "\x7b\x7d", "[]", "[]", []⟩ = "BarView"
    ∧ get_vue_name ⟨"Foocomponent", "\x7b\x7d", "[]", "[]", []⟩ = "Foo"
    ∧ get_vue_name ⟨"Barview", "\x7b\x7d", "[]", "[]", []⟩ = "Bar" := by
  refine ⟨?_, ?_, ?_, ?_⟩ <;> decide

/-- C5: the instance dict of `get` (views.py lines 140-145) deduplicates the
declared sub-components, then the routed views, then the view itself by
derived component name: the emitted names are pairwise distinct, a name is
emitted iff some instance bears it, the instance kept for a name is the LAST
one with that name in that order, and the view's own instance is always
kept. -/
theorem vueInstances_dedup_by_name (comps routes : List (String × VueComponent))
    (selfC : VueComponent) :
    ((vueInstances comps routes selfC).map get_vue_name).Nodup
    ∧ (∀ n : String, n ∈ (vueInstances comps routes selfC).map get_vue_name
        ↔ n ∈ (instanceList comps routes selfC).map get_vue_name)
    ∧ (∀ c ∈ vueInstances comps routes selfC,
        lastValD (instancePairs comps routes selfC) (get_vue_name c) = some c)
    ∧ selfC ∈ vueInstances comps routes selfC := by
  have inv : ∀ p ∈ dictOfList (instancePairs comps routes selfC), get_vue_name p.2 = p.1 := by
    refine dictOfList_pairProp _ _ ?_
    intro p hp
    rcases List.mem_map.mp hp with ⟨c, _, hc⟩
    rw [← hc]
  have hmapname : (vueInstances comps routes selfC).map get_vue_name
      = (dictOfList (instancePairs comps routes selfC)).map Prod.fst := by
    unfold vueInstances
    rw [List.map_map]
    exact List.map_congr_left inv
  have hkeys : (instancePairs comps routes selfC).map Prod.fst
      = (instanceList comps routes selfC).map get_vue_name := by
    unfold instancePairs
    rw [List.map_map]
    rfl
  refine ⟨?_, ?_, ?_, ?_⟩
  · rw [hmapname]
    exact dictOfList_keys_nodup _
  · intro n
    rw [hmapname, mem_keys_dictOfList, hkeys]
  · intro c hc
    rcases List.mem_map.mp hc with ⟨p, hp, hpc⟩
    have hname : get_vue_name c = p.1 := by rw [← hpc]; exact inv p hp
    have hpair : (get_vue_name c, c) ∈ dictOfList (instancePairs comps routes selfC) := by
      rw [hname, ← hpc]
      exact hp
    rw [← lookupD_dictOfList]
    exact lookupD_of_mem_nodup _ _ _ (dictOfList_keys_nodup _) hpair
  · have hlast : lastValD (instancePairs comps routes selfC) (get_vue_name selfC)
        = some selfC := by
      unfold instancePairs instanceList
      rw [List.map_append, lastValD_append]
      have : lastValD ([selfC].map (fun c => (get_vue_name c, c))) (get_vue_name selfC)
          = some selfC := by
        show oElse (lastValD [] _) _ = some selfC
        simp [lastValD, oElse]
      rw [this]
      rfl
    have hpair := mem_of_lookupD _ _ _ ((lookupD_dictOfList _ _).trans hlast)
    exact List.mem_map.mpr ⟨(get_vue_name selfC, selfC), hpair, rfl⟩

/-- C6: neither `get` nor `get_vue_template` installs a handler: when the
underlying Django template rendering (or the subsequent HTML parsing) fails,
the error propagates unchanged out of both pipelines and no response is
produced. -/
theorem pipeline_propagates_errors {ε : Type} (staticUrl : String)
    (comps routes : List (String × VueComponent)) (selfC : VueComponent)
    (e : ε) (render : Except ε String) (parse : String → Except ε Doc)
    (h : render = Except.error e) :
    get_vue_template_fallible render parse = Except.error e
    ∧ django_vue_get_fallible staticUrl comps routes selfC render parse = Except.error e
    ∧ ∀ (content : String) (parse2 : String → Except ε Doc),
        parse2 content = Except.error e →
          django_vue_get_fallible staticUrl comps routes selfC (Except.ok content) parse2
            = Except.error e := by
  subst h
  refine ⟨rfl, rfl, ?_⟩
  intro content parse2 hp
  show (match parse2 content with
    | .error e => .error e
    | .ok doc => .ok (django_vue_get staticUrl comps routes selfC doc)) = Except.error e
  rw [hp]

/-- Witness for C6 at a concrete failing renderer. -/
theorem pipeline_propagates_errors_witness :
    django_vue_get_fallible "/static/" [] []
        ⟨"SampleComponent", "\x7b\x7d", "[]", "[]", []⟩
        (Except.error "TemplateDoesNotExist") (fun _ => Except.ok ⟨[], []⟩)
      = Except.error "TemplateDoesNotExist" :=
  (pipeline_propagates_errors "/static/" [] []
    ⟨"SampleComponent", "\x7b\x7d", "[]", "[]", []⟩
    "TemplateDoesNotExist" _ _ rfl).2.1

/-- C7: processing a GET request leaves the declared configuration attributes
`vue_components`, `vue_data`, `vue_emits`, `vue_props`, `vue_routes` of the
view object unchanged; the one attribute the pipeline writes is `request`,
assigned by `get_vue_template` (views.py line 59). -/
theorem get_state_only_writes_request (staticUrl : String) (req : HttpRequest)
    (s : ViewState) (selfC : VueComponent) (doc : Doc) :
    (django_vue_get_state staticUrl req s selfC doc).1.vue_components = s.vue_components
    ∧ (django_vue_get_state staticUrl req s selfC doc).1.vue_data = s.vue_data
    ∧ (django_vue_get_state staticUrl req s selfC doc).1.vue_emits = s.vue_emits
    ∧ (django_vue_get_state staticUrl req s selfC doc).1.vue_props = s.vue_props
    ∧ (django_vue_get_state staticUrl req s selfC doc).1.vue_routes = s.vue_routes
    ∧ (django_vue_get_state staticUrl req s selfC doc).1 = { s with request := some req } :=
  ⟨rfl, rfl, rfl, rfl, rfl, rfl⟩

/-- C10: `template or self.get_vue_template(request)` treats the empty string
like an absent template: `get_vue_definition` called with `template=""`
produces exactly the definition produced with `template=None`, and the
rendered template is what gets spliced between the backticks. -/
theorem get_vue_definition_empty_falls_back (c : VueComponent) :
    get_vue_definition c (some "") = get_vue_definition c none
    ∧ pyOrString (some "") (get_vue_template c) = get_vue_template c
    ∧ (∃ pre post : String,
        get_vue_definition c (some "") = pre ++ (get_vue_template c ++ post)) := by
  refine ⟨by simp [get_vue_definition, pyOrString], by simp [pyOrString], ?_⟩
  refine ⟨"\n            const " ++ get_vue_name c
    ++ " = \x7b\n              data() \x7b\n                return " ++ c.dataJson
    ++ "\n              \x7d,\n              emits: " ++ c.emitsJson
    ++ ",\n              props: " ++ c.propsJson
    ++ ",\n              template: `", "`,\n            \x7d\n        ", ?_⟩
  simp [get_vue_definition, pyOrString, String.append_assoc]

/-- Witness for C5 at a concrete view class. -/
theorem vueInstances_dedup_by_name_witness :
    (⟨"SampleComponent", "\x7b\x7d", "[]", "[]", []⟩ : VueComponent)
        ∈ vueInstances [] [] ⟨"SampleComponent", "\x7b\x7d", "[]", "[]", []⟩
    ∧ lastValD (instancePairs [] [] ⟨"SampleComponent", "\x7b\x7d", "[]", "[]", []⟩)
        (get_vue_name ⟨"SampleComponent", "\x7b\x7d", "[]", "[]", []⟩)
      = some ⟨"SampleComponent", "\x7b\x7d", "[]", "[]", []⟩ := by
  have h := vueInstances_dedup_by_name [] [] ⟨"SampleComponent", "\x7b\x7d", "[]", "[]", []⟩
  exact ⟨h.2.2.2, h.2.2.1 _ h.2.2.2⟩

/-- C8: library presence is a substring test on `src`.  On a document whose
head holds only a `vue-router` script, `script_present("vue")` is true (the
name `vue` occurs inside `.../vue-router@next`), so `get` injects no `vue`
script tag — nor a `vue-router` one — and appends exactly the
`vue3-sfc-loader`, `axios` and `django-vue` tags. -/
theorem script_present_substring_match :
    script_present ⟨[scriptTag "https://unpkg.com/vue-router@next"], []⟩ "vue" = true
    ∧ (injectScripts "/static/" ⟨[scriptTag "https://unpkg.com/vue-router@next"], []⟩).head
      = [scriptTag "https://unpkg.com/vue-router@next",
         scriptTag "https://cdn.jsdelivr.net/npm/vue3-sfc-loader/dist/vue3-sfc-loader.js",
         scriptTag "https://unpkg.com/axios/dist/axios.min.js",
         scriptTag "/static/django-vue.js"] := by
  have hp1 : script_present ⟨[scriptTag "https://unpkg.com/vue-router@next"], []⟩ "vue"
      = true := by
    simp only [script_present, scriptSrcsL, scriptTag, attrVal, List.find?]
    decide
  have hp2 : script_present ⟨[scriptTag "https://unpkg.com/vue-router@next"], []⟩
      "vue-router" = true := by
    simp only [script_present, scriptSrcsL, scriptTag, attrVal, List.find?]
    decide
  have hp3 : script_present ⟨[scriptTag "https://unpkg.com/vue-router@next"], []⟩
      "vue3-sfc-loader" = false := by
    simp only [script_present, scriptSrcsL, scriptTag, attrVal, List.find?]
    decide
  have hp4 : script_present ⟨[scriptTag "https://unpkg.com/vue-router@next",
      scriptTag "https://cdn.jsdelivr.net/npm/vue3-sfc-loader/dist/vue3-sfc-loader.js"], []⟩
      "axios" = false := by
    simp only [script_present, scriptSrcsL, scriptTag, attrVal, List.find?]
    decide
  have hp5 : script_present ⟨[scriptTag "https://unpkg.com/vue-router@next",
      scriptTag "https://cdn.jsdelivr.net/npm/vue3-sfc-loader/dist/vue3-sfc-loader.js",
      scriptTag "https://unpkg.com/axios/dist/axios.min.js"], []⟩
      "django-vue" = false := by
    simp only [script_present, scriptSrcsL, scriptTag, attrVal, List.find?]
    decide
  refine ⟨hp1, ?_⟩
  simp [injectScripts, addIfAbsent, staticUrlOf, hp1, hp2, hp3, hp4, hp5]

/-! ## Theorems: body reconstruction (C9 machinery) -/

theorem collectTL_tag (t : String) (l : List Node) :
    ∀ n ∈ collectTL t l, ∃ a gs, n = Node.elem t a gs := by
  induction l using collectTL.induct t with
  | case1 => simp [collectTL]
  | case2 s cs ih => simpa [collectTL] using ih
  | case3 a gs cs ihg ihc =>
    intro n hn
    rw [show collectTL t (Node.elem t a gs :: cs)
        = Node.elem t a (removeTL t gs) :: (collectTL t gs ++ collectTL t cs) by
      simp [collectTL]] at hn
    rcases List.mem_cons.mp hn with h | h
    · exact ⟨a, removeTL t gs, h⟩
    · rcases List.mem_append.mp h with h | h
      · exact ihg n h
      · exact ihc n h
  | case4 tg a gs cs htg ihg ihc =>
    intro n hn
    rw [show collectTL t (Node.elem tg a gs :: cs) = collectTL t gs ++ collectTL t cs by
      simp [collectTL, htg]] at hn
    rcases List.mem_append.mp hn with h | h
    · exact ihg n h
    · exact ihc n h

/-- C9: after `get`, the body consists exactly, in order, of the extracted
style elements, the `div#app` element, the generated bootstrapping script and
the extracted script elements; every extracted entry is a `style` (resp.
`script`) element, so any original body child that is neither a `style` nor a
`script` element (nor happens to coincide with the injected `div#app`) no
longer occurs as body markup. -/
theorem get_rebuilds_body (d : Doc) (bootstrap : String) :
    (processBody d bootstrap).body
        = bodyStyles d ++ [appDiv] ++ [bootstrapNode bootstrap] ++ bodyScripts d
    ∧ (∀ n ∈ bodyStyles d, ∃ a gs, n = Node.elem "style" a gs)
    ∧ (∀ n ∈ bodyScripts d, ∃ a gs, n = Node.elem "script" a gs)
    ∧ (∀ c ∈ d.body, (∀ a gs, c ≠ Node.elem "style" a gs) →
        (∀ a gs, c ≠ Node.elem "script" a gs) → c ≠ appDiv →
          c ∉ (processBody d bootstrap).body) := by
  refine ⟨rfl, collectTL_tag _ _, collectTL_tag _ _, ?_⟩
  intro c _ hstyle hscript hdiv hmem
  have hmem' : c ∈ ((bodyStyles d ++ [appDiv]) ++ [bootstrapNode bootstrap])
      ++ bodyScripts d := hmem
  rcases List.mem_append.mp hmem' with h | hsc
  · rcases List.mem_append.mp h with h2 | hb
    · rcases List.mem_append.mp h2 with hst | hd
      · rcases collectTL_tag "style" d.body c hst with ⟨a, gs, hc⟩
        exact hstyle a gs hc
      · exact hdiv (List.mem_singleton.mp hd)
    · exact hscript [] [Node.text bootstrap] (List.mem_singleton.mp hb)
  · rcases collectTL_tag "script" (removeTL "style" d.body) c hsc with ⟨a, gs, hc⟩
    exact hscript a gs hc

/-- Witness for C9: a plain paragraph in the original body is gone from the
rebuilt body. -/
theorem get_rebuilds_body_witness :
    Node.elem "p" [] [Node.text "hi"]
      ∉ (processBody ⟨[], [Node.elem "p" [] [Node.text "hi"]]⟩ "BOOT").body := by
  refine (get_rebuilds_body ⟨[], [Node.elem "p" [] [Node.text "hi"]]⟩ "BOOT").2.2.2
    _ ?_ ?_ ?_ ?_
  · exact List.mem_singleton.mpr rfl
  · intro a gs h
    simp at h
  · intro a gs h
    simp at h
  · intro h
    simp [appDiv] at h

end DjangoVue
